import Mathlib

/-!
# Shallow embedding of the codebreaker crate (CodeBreaker PS2 cheat-code codec)

This file embeds the Rust sources `src/rc4.rs`, `src/cb1.rs`, `src/cb7.rs` and
`src/lib.rs` into Lean and proves/refutes the frozen claims about them.

Conventions of the embedding:

* A machine integer `u32` is a natural number; wrapping arithmetic is made
  explicit with `% 2 ^ 32` (helpers `add32`, `sub32`, `mul32`).
* A byte buffer `[u8; n]` is modelled little-endian as a single natural
  number `< 256 ^ n`: byte `i` of buffer `b` is `b / 256 ^ i % 256`.  This
  matches the little-endian memory layout the Rust code relies on through
  `bytemuck::bytes_of` / `cast_slice`: the 20-byte view of `key: [u32; 5]`
  is the same number as the packing of the five words, and the flat
  1280-byte view of `seeds: [[u8; 256]; 5]` is the packing of the five
  256-byte rows in order.
* Rust code that can panic (the `digits[1]` / `digits[0]` vector accesses of
  `rsa_crypt`, and the `assert!` of `Cb7::beefcode`) is modelled with
  `Option`: `none` means the Rust program aborts.
* Loops are structural recursions; `nseq` is a semantic no-op
  (`nseq a k = k`, see `nseq_eq`) that forces intermediate numerals during
  kernel reduction so that concrete executions can be checked by `decide`.
-/

set_option maxRecDepth 40000
set_option exponentiation.threshold 20000

/-- Wrapping `u32` addition: `a.wrapping_add(b)`. -/
def add32 (a b : ℕ) : ℕ := (a + b) % 2 ^ 32

/-- Wrapping `u32` subtraction: `a.wrapping_sub(b)`. -/
def sub32 (a b : ℕ) : ℕ := (a + (2 ^ 32 - b % 2 ^ 32)) % 2 ^ 32

/-- Wrapping `u32` multiplication: `a.wrapping_mul(b)`. -/
def mul32 (a b : ℕ) : ℕ := a * b % 2 ^ 32

/-- Byte `i` of a little-endian packed byte buffer. -/
def getByte (s i : ℕ) : ℕ := s / 256 ^ i % 256

/-- Replace byte `i` of a little-endian packed byte buffer by `b`. -/
def setByte (s i b : ℕ) : ℕ :=
  s % 256 ^ i + b * 256 ^ i + s / 256 ^ (i + 1) * 256 ^ (i + 1)

/-- `state.swap(i, j)` on a packed byte buffer. -/
def swapBytes (s i j : ℕ) : ℕ :=
  setByte (setByte s i (getByte s j)) j (getByte s i)

/-- Strict sequencing: semantically the identity on `k` (see `nseq_eq`), but
forces the numeral `a` during kernel reduction, keeping evaluation of the
loops below at constant stack depth. -/
def nseq {α : Sort*} (a : ℕ) (k : α) : α := if a = 0 then k else k

/-! ## RC4 (`src/rc4.rs`)

```text
pub struct Rc4 { i: u8, j: u8, state: [u8; 256] }
```
The 256-byte permutation `state` is packed into one numeral. -/

structure Rc4 where
  i : ℕ
  j : ℕ
  state : ℕ
deriving DecidableEq

/-- `state[i] = i as u8` initialisation loop of `Rc4::new`
(iterates `i = 0..256` as the fuel descends). -/
def rc4InitLoop : ℕ → ℕ → ℕ
  | 0, st => st
  | n + 1, st =>
    let i := 255 - n
    let st' := setByte st i i
    nseq st' (rc4InitLoop n st')

/-- The identity byte permutation `[0, 1, ..., 255]`, packed. -/
def rc4InitState : ℕ := rc4InitLoop 256 0

/-- Key-scheduling loop of `Rc4::new`:
`j = j.wrapping_add(state[i]).wrapping_add(key[i % key.len()]); state.swap(i, j)`
for `i = 0..256`.  `key` is a packed buffer of `len` bytes. -/
def ksaLoop (key len : ℕ) : ℕ → ℕ → ℕ → ℕ
  | 0, _, st => st
  | n + 1, j, st =>
    let i := 255 - n
    let j' := (j + getByte st i + getByte key (i % len)) % 256
    let st' := swapBytes st i j'
    nseq (j' + st') (ksaLoop key len n j' st')

/-- `Rc4::new(key)` for a packed key of `len` bytes (the `assert!` on the key
length is irrelevant here: every internal call uses 8 or 20 key bytes). -/
def Rc4.new (key len : ℕ) : Rc4 :=
  ⟨0, 0, ksaLoop key len 256 0 rc4InitState⟩

/-- PRGA loop of `Rc4::crypt` over `n` buffer bytes (low byte first, which is
Rust's in-memory order).  Arguments: `i0 j0 st0` the cipher state, `buf` the
remaining input bytes, `n` their count, `acc` the processed output bytes,
`mult = 256 ^ (number of processed bytes)` the position multiplier. -/
def cryptLoop : ℕ → ℕ → ℕ → ℕ → ℕ → ℕ → ℕ → Rc4 × ℕ
  | i0, j0, st0, _, 0, acc, _ => (⟨i0, j0, st0⟩, acc)
  | i0, j0, st0, buf, n + 1, acc, mult =>
    let i := (i0 + 1) % 256
    let j := (j0 + getByte st0 i) % 256
    let st := swapBytes st0 i j
    let k := getByte st ((getByte st i + getByte st j) % 256)
    let acc' := acc + (buf % 256 ^^^ k) * mult
    nseq (st + acc') (cryptLoop i j st (buf / 256) n acc' (mult * 256))

/-- `Rc4::crypt(buf)` on a packed buffer of `n` bytes; returns the advanced
cipher and the crypted buffer. -/
def Rc4.crypt (r : Rc4) (buf n : ℕ) : Rc4 × ℕ :=
  cryptLoop r.i r.j r.state buf n 0 1

/-! ## v1 codec (`src/cb1.rs`) -/

namespace Cb1

/-- The three fixed `[u32; 16]` seed tables `SEEDS` of `src/cb1.rs`. -/
def SEEDS : List (List ℕ) := [
  [0x0a0b8d9b, 0x0a0133f8, 0x0af733ec, 0x0a15c574,
   0x0a50ac20, 0x0a920fb9, 0x0a599f0b, 0x0a4aa0e3,
   0x0a21c012, 0x0a906254, 0x0a31fd54, 0x0a091c0e,
   0x0a372b38, 0x0a6f266c, 0x0a61dd4a, 0x0a0dbf92],
  [0x00288596, 0x0037dd28, 0x003beef1, 0x000bc822,
   0x00bc935d, 0x00a139f2, 0x00e9bbf8, 0x00f57f7b,
   0x0090d704, 0x001814d4, 0x00c5848e, 0x005b83e7,
   0x00108cf7, 0x0046ce5a, 0x003a5bf4, 0x006faffc],
  [0x1dd9a10a, 0xb95ab9b0, 0x5cf5d328, 0x95fe7f10,
   0x8e2d6303, 0x16bb6286, 0xe389324c, 0x07ac6ea8,
   0xaa4811d8, 0x76ce4e18, 0xfe447516, 0xf9cd94d0,
   0x4c24dedb, 0x68275c4e, 0x72494382, 0xc8aa88e8]]

/-- `SEEDS[i][cmd]`. -/
def seed (i cmd : ℕ) : ℕ := (SEEDS.getD i []).getD cmd 0

/-- `cb1::encrypt_code` (src/cb1.rs lines 12-21). -/
def encrypt_code (addr val : ℕ) : ℕ × ℕ :=
  let cmd := addr >>> 28
  let tmp := addr &&& 0xff000000
  let a1 := ((addr &&& 0xff) <<< 16) ||| ((addr >>> 8) &&& 0xffff)
  let a2 := (tmp ||| (add32 a1 (seed 1 cmd) &&& 0x00ffffff)) ^^^ seed 0 cmd
  let v2 := if 2 < cmd then a2 ^^^ add32 val (seed 2 cmd) else val
  (a2, v2)

/-- `cb1::decrypt_code` (src/cb1.rs lines 48-57). -/
def decrypt_code (addr val : ℕ) : ℕ × ℕ :=
  let cmd := addr >>> 28
  let v1 := if 2 < cmd then sub32 (addr ^^^ val) (seed 2 cmd) else val
  let tmp := addr ^^^ seed 0 cmd
  let a1 := sub32 tmp (seed 1 cmd)
  let a2 := (tmp &&& 0xff000000) ||| ((a1 &&& 0xffff) <<< 8) ||| ((a1 >>> 16) &&& 0xff)
  (a2, v1)

end Cb1

/-! ## v7 codec (`src/cb7.rs`) -/

/-- The fixed `[[u8; 256]; 5]` table `SEEDS` of `src/cb7.rs`, as the list of
its 1280 bytes in memory order (row 0 first). -/
def SEEDS_BYTES : List ℕ := [
  0x84, 0x01, 0x21, 0xa4, 0xfa, 0x4d, 0x50, 0x8d, 0x75, 0x33, 0xc5, 0xf7, 0x4a, 0x6d, 0x7c, 0xa6,
  0x1c, 0xf8, 0x40, 0x18, 0xa1, 0xb3, 0xa2, 0xf9, 0x6a, 0x19, 0x63, 0x66, 0x29, 0xae, 0x10, 0x75,
  0x84, 0x7d, 0xec, 0x6a, 0xf9, 0x2d, 0x8e, 0x33, 0x44, 0x5c, 0x33, 0x6d, 0x78, 0x3e, 0x1b, 0x6c,
  0x02, 0xe0, 0x7d, 0x77, 0x1d, 0xb1, 0x61, 0x2a, 0xcd, 0xc1, 0x38, 0x53, 0x1f, 0xa1, 0x6e, 0x3d,
  0x03, 0x0d, 0x05, 0xdc, 0x50, 0x19, 0x85, 0x89, 0x9b, 0xf1, 0x8a, 0xc2, 0xd1, 0x5c, 0x22, 0xc4,
  0x11, 0x29, 0xf6, 0x13, 0xec, 0x06, 0xe4, 0xbd, 0x08, 0x9e, 0xb7, 0x8d, 0x72, 0x92, 0x10, 0x3c,
  0x41, 0x4e, 0x81, 0x55, 0x08, 0x9c, 0xa3, 0xbc, 0xa1, 0x79, 0xb0, 0x7a, 0x94, 0x3a, 0x39, 0x95,
  0x7a, 0xc6, 0x96, 0x21, 0xb0, 0x07, 0x17, 0x5e, 0x53, 0x54, 0x08, 0xcf, 0x85, 0x6c, 0x4b, 0xbe,
  0x30, 0x82, 0xdd, 0x1d, 0x3a, 0x24, 0x3c, 0xb2, 0x67, 0x0c, 0x36, 0x03, 0x51, 0x60, 0x3f, 0x67,
  0xf1, 0xb2, 0x77, 0xdc, 0x12, 0x9d, 0x7b, 0xce, 0x65, 0xf8, 0x75, 0xea, 0x23, 0x63, 0x99, 0x54,
  0x37, 0xc0, 0x3c, 0x42, 0x77, 0x12, 0xb7, 0xca, 0x54, 0xf1, 0x26, 0x1d, 0x1e, 0xd1, 0xab, 0x2c,
  0xaf, 0xb6, 0x91, 0x2e, 0xbd, 0x84, 0x0b, 0xf2, 0x1a, 0x1e, 0x26, 0x1e, 0x00, 0x12, 0xb7, 0x77,
  0xd6, 0x61, 0x1c, 0xce, 0xa9, 0x10, 0x19, 0xaa, 0x88, 0xe6, 0x35, 0x29, 0x32, 0x5f, 0x57, 0xa7,
  0x94, 0x93, 0xa1, 0x2b, 0xeb, 0x9b, 0x17, 0x2a, 0xaa, 0x60, 0xd5, 0x19, 0xb2, 0x4e, 0x5a, 0xe2,
  0xc9, 0x4a, 0x00, 0x68, 0x6e, 0x59, 0x36, 0xa6, 0xa0, 0xf9, 0x19, 0xa2, 0xc7, 0xc9, 0xd4, 0x29,
  0x5c, 0x99, 0x3c, 0x5c, 0xe2, 0xcb, 0x94, 0x40, 0x8b, 0xf4, 0x3b, 0xd2, 0x38, 0x7d, 0xbf, 0xd0,
  0xcc, 0x6d, 0x5d, 0x0b, 0x70, 0x25, 0x5d, 0x68, 0xfe, 0xbe, 0x6c, 0x3f, 0xa4, 0xd9, 0x95, 0x5f,
  0x30, 0xae, 0x34, 0x39, 0x00, 0x89, 0xdc, 0x5a, 0xc8, 0x82, 0x24, 0x3a, 0xfc, 0xda, 0x3c, 0x1f,
  0x73, 0x3f, 0x63, 0xaa, 0x53, 0xbd, 0x4e, 0xb5, 0x33, 0x48, 0x59, 0xc1, 0xb7, 0xe0, 0x0c, 0x99,
  0xec, 0x3b, 0x32, 0x26, 0xb3, 0xb1, 0xe2, 0x8e, 0x54, 0x41, 0x55, 0xdb, 0x1d, 0x90, 0x0b, 0x48,
  0xf3, 0x3f, 0xca, 0x1f, 0x19, 0xeb, 0x7f, 0x56, 0x52, 0xd7, 0x20, 0x67, 0x59, 0x4f, 0x4e, 0xdc,
  0xbb, 0x6a, 0x8e, 0x45, 0x88, 0x0b, 0x93, 0xac, 0xcd, 0x0e, 0x29, 0x18, 0x7a, 0x16, 0x8d, 0x8d,
  0xc2, 0x88, 0x6a, 0x9d, 0x39, 0xf4, 0x93, 0x14, 0xcd, 0xe0, 0x6b, 0xc7, 0x28, 0x21, 0x5c, 0x97,
  0x70, 0x7c, 0xab, 0x53, 0x46, 0x33, 0x03, 0x18, 0xdf, 0x91, 0xfe, 0x06, 0xc0, 0xff, 0xa2, 0x58,
  0xf3, 0xb0, 0x6b, 0x9b, 0x71, 0x91, 0x23, 0xda, 0x92, 0x67, 0x14, 0x34, 0x9f, 0xa5, 0xaf, 0x65,
  0x62, 0xe8, 0x7f, 0x79, 0x35, 0x32, 0x29, 0x3e, 0x4f, 0xdc, 0xc7, 0x8e, 0xf1, 0x21, 0x9d, 0x3b,
  0x61, 0xfc, 0x0b, 0x02, 0xec, 0xe4, 0xa7, 0xea, 0x77, 0xe7, 0x21, 0x63, 0x97, 0x7f, 0x23, 0x8a,
  0x8b, 0xbe, 0x4e, 0x90, 0xc0, 0x89, 0x04, 0x44, 0x90, 0x57, 0x41, 0xb5, 0x74, 0xad, 0xb1, 0xe9,
  0xf3, 0x91, 0xc7, 0x27, 0x3e, 0x00, 0x81, 0x99, 0xee, 0x38, 0xf5, 0x32, 0x4f, 0x27, 0x4f, 0x64,
  0x39, 0x3d, 0xd3, 0x0b, 0x99, 0xd5, 0x99, 0xd6, 0x10, 0x4b, 0x43, 0x17, 0x38, 0x34, 0x54, 0x63,
  0x19, 0x36, 0xbd, 0x15, 0xb1, 0x06, 0x1e, 0xde, 0x1b, 0xaf, 0xeb, 0xfa, 0x56, 0xb8, 0x8d, 0x9d,
  0x14, 0x1a, 0xa6, 0x49, 0x56, 0x19, 0xca, 0xc1, 0x40, 0x6d, 0x71, 0xde, 0x68, 0xc1, 0xc3, 0x4a,
  0x69, 0x31, 0x5c, 0xab, 0x7f, 0x5b, 0xe9, 0x81, 0x32, 0x58, 0x32, 0x0a, 0x97, 0xf3, 0xc7, 0xcf,
  0xbb, 0x1d, 0xcf, 0x0e, 0x83, 0x35, 0x4c, 0x58, 0xce, 0xf7, 0x8a, 0xe4, 0xb0, 0xe4, 0x83, 0x48,
  0x81, 0x77, 0x7c, 0x3f, 0xbc, 0x27, 0x3a, 0x1b, 0xa4, 0xe9, 0x06, 0xa4, 0x15, 0xab, 0x90, 0x10,
  0x7d, 0x74, 0xda, 0xfc, 0x36, 0x09, 0xcc, 0xf7, 0x12, 0xb6, 0xf4, 0x94, 0xe9, 0x8b, 0x6a, 0x3b,
  0x5e, 0x71, 0x46, 0x3e, 0x0b, 0x78, 0xad, 0x3b, 0x94, 0x5b, 0x89, 0x85, 0xa3, 0xe0, 0x01, 0xeb,
  0x84, 0x41, 0xaa, 0xd7, 0xb3, 0x17, 0x16, 0xc3, 0x6c, 0xb1, 0x81, 0x73, 0xec, 0xe4, 0x6e, 0x09,
  0x56, 0xee, 0x7a, 0xf6, 0x75, 0x6a, 0x73, 0x95, 0x8d, 0xda, 0x51, 0x63, 0x8b, 0xbb, 0xe0, 0x4d,
  0xf8, 0xa0, 0x27, 0xf2, 0x9f, 0xc8, 0x15, 0x5a, 0x23, 0x85, 0x58, 0x04, 0x4a, 0x57, 0x28, 0x20,
  0x6d, 0x9d, 0x85, 0x83, 0x3c, 0xbf, 0x02, 0xb0, 0x96, 0xe8, 0x73, 0x6f, 0x20, 0x6e, 0xb0, 0xe4,
  0xc6, 0xfa, 0x71, 0xa6, 0x5d, 0xc5, 0xa0, 0xa3, 0xf8, 0x5c, 0x99, 0xcb, 0x9c, 0x04, 0x3a, 0xb2,
  0x04, 0x8d, 0xa2, 0x9d, 0x32, 0xf0, 0xbd, 0xaa, 0xea, 0x81, 0x79, 0xe2, 0xa1, 0xba, 0x89, 0x12,
  0xd5, 0x9f, 0x81, 0xeb, 0x63, 0xe7, 0xe5, 0xd4, 0xe9, 0x0e, 0x30, 0xbc, 0xcb, 0x70, 0xdd, 0x51,
  0x77, 0xc0, 0x80, 0xb3, 0x49, 0x03, 0x9a, 0xb8, 0x8c, 0xa7, 0x63, 0x62, 0x8f, 0x72, 0x5c, 0xa6,
  0xa0, 0xcf, 0x4f, 0xb4, 0x86, 0xfd, 0x49, 0xfa, 0x4a, 0x85, 0xdb, 0xfe, 0x61, 0xb7, 0x3a, 0xd7,
  0x83, 0x70, 0x57, 0x49, 0x83, 0xa7, 0x10, 0x73, 0x74, 0x37, 0x87, 0xfd, 0x6b, 0x28, 0xb7, 0x31,
  0x1e, 0x54, 0x1c, 0xe9, 0xd0, 0xb1, 0xca, 0x76, 0x3b, 0x21, 0xf7, 0x67, 0xbb, 0x48, 0x69, 0x39,
  0x8d, 0xd1, 0x8c, 0x7b, 0x83, 0x8c, 0xa8, 0x18, 0xa7, 0x4a, 0x14, 0x03, 0x88, 0xb3, 0xce, 0x74,
  0xbf, 0x5b, 0x87, 0x67, 0xa7, 0x85, 0x6b, 0x62, 0x96, 0x7c, 0xa9, 0xa6, 0xf6, 0x9e, 0xf4, 0x73,
  0xc5, 0xc4, 0xb0, 0x2b, 0x73, 0x2e, 0x36, 0x77, 0xdf, 0xba, 0x57, 0xff, 0x7f, 0xe9, 0x84, 0xe1,
  0x8d, 0x7b, 0xa2, 0xef, 0x4f, 0x10, 0xf3, 0xd3, 0xe8, 0xb4, 0xba, 0x20, 0x28, 0x79, 0x18, 0xd6,
  0x0f, 0x1c, 0xaa, 0xbd, 0x0e, 0x45, 0xf7, 0x6c, 0x68, 0xb9, 0x29, 0x40, 0x1a, 0xcf, 0xb6, 0x0a,
  0x13, 0xf8, 0xc0, 0x9c, 0x87, 0x10, 0x36, 0x14, 0x73, 0xa1, 0x75, 0x27, 0x14, 0x55, 0xaf, 0x78,
  0x9a, 0x08, 0xc9, 0x05, 0xf2, 0xec, 0x24, 0x1b, 0x07, 0x4a, 0xdc, 0xf6, 0x48, 0xc6, 0x25, 0xcd,
  0x12, 0x1d, 0xaf, 0x51, 0x8f, 0xe9, 0xca, 0x2c, 0x80, 0x57, 0x78, 0xb7, 0x96, 0x07, 0x19, 0x77,
  0x6e, 0x16, 0x45, 0x47, 0x8e, 0x9c, 0x18, 0x55, 0xf1, 0x72, 0xb3, 0x8a, 0xea, 0x4e, 0x8d, 0x90,
  0x2e, 0xbc, 0x08, 0xac, 0xf6, 0xa0, 0x5c, 0x16, 0xe3, 0x7a, 0xee, 0x67, 0xb8, 0x58, 0xdc, 0x16,
  0x40, 0xed, 0xf9, 0x18, 0xb3, 0x0e, 0xd8, 0xee, 0xe1, 0xfa, 0xc3, 0x9f, 0x82, 0x99, 0x32, 0x41,
  0x34, 0xbe, 0xc9, 0x50, 0x36, 0xe5, 0x66, 0xaa, 0x0d, 0x43, 0xf0, 0x3f, 0x26, 0x7c, 0xf3, 0x87,
  0x26, 0xa4, 0xf5, 0xf8, 0xa0, 0x32, 0x46, 0x74, 0x2e, 0x5a, 0xe2, 0xe7, 0x6b, 0x02, 0xa8, 0xd0,
  0xcf, 0xb8, 0x33, 0x15, 0x3b, 0x4f, 0xc7, 0x7a, 0xe8, 0x3d, 0x75, 0xd2, 0xfe, 0x42, 0x22, 0x22,
  0xa8, 0x21, 0x33, 0xfb, 0xb0, 0x87, 0x92, 0x99, 0xca, 0xd7, 0xd7, 0x88, 0xac, 0xe4, 0x75, 0x83,
  0x56, 0xbf, 0xce, 0xed, 0x4f, 0xf6, 0x22, 0x07, 0xca, 0xbc, 0xd2, 0xef, 0x1b, 0x75, 0xd6, 0x2d,
  0xd2, 0x4f, 0x76, 0x51, 0xeb, 0xa1, 0xad, 0x84, 0xd6, 0x19, 0xe6, 0x97, 0xd9, 0xd3, 0x58, 0x6b,
  0xfb, 0xb8, 0x20, 0xfd, 0x49, 0x56, 0x1b, 0x50, 0x61, 0x10, 0x57, 0xb8, 0x78, 0x07, 0xc1, 0x4a,
  0xa2, 0xea, 0x47, 0x80, 0x00, 0x4a, 0xb3, 0x4e, 0x6f, 0x1a, 0xc1, 0xd5, 0x22, 0xf8, 0x54, 0x2f,
  0x33, 0xe5, 0x7f, 0xb4, 0x13, 0x02, 0xa3, 0xa1, 0x8b, 0x1c, 0x6f, 0x19, 0xd6, 0x42, 0xb3, 0x24,
  0x4b, 0x04, 0x30, 0x10, 0x02, 0x23, 0x6f, 0x10, 0x03, 0x4b, 0x0e, 0x33, 0x55, 0x22, 0xa4, 0x78,
  0xec, 0xd2, 0x4a, 0x11, 0x8b, 0xfc, 0xff, 0x14, 0x7a, 0xed, 0x06, 0x47, 0x86, 0xfc, 0xf0, 0x03,
  0x0f, 0x75, 0x07, 0xe4, 0x9a, 0xd3, 0xbb, 0x0d, 0x97, 0x1f, 0x6f, 0x80, 0x62, 0xa6, 0x9e, 0xc6,
  0xb1, 0x10, 0x81, 0xa1, 0x6d, 0x55, 0x0f, 0x9e, 0x1b, 0xb7, 0xf5, 0xdc, 0x62, 0xa8, 0x63, 0x58,
  0xcf, 0x2f, 0x6a, 0xad, 0x5e, 0xd3, 0x3f, 0xbd, 0x8d, 0x9b, 0x2a, 0x8b, 0xdf, 0x60, 0xb9, 0xaf,
  0xaa, 0x70, 0xb4, 0xa8, 0x17, 0x99, 0x72, 0xb9, 0x88, 0x9d, 0x3d, 0x2a, 0x11, 0x87, 0x1e, 0xf3,
  0x9d, 0x33, 0x8d, 0xed, 0x52, 0x60, 0x36, 0x71, 0xff, 0x7b, 0x37, 0x84, 0x3d, 0x27, 0x9e, 0xd9,
  0xdf, 0x58, 0xf7, 0xc2, 0x58, 0x0c, 0x9d, 0x5e, 0xee, 0x23, 0x83, 0x70, 0x3f, 0x95, 0xbc, 0xf5,
  0x42, 0x86, 0x91, 0x5b, 0x3f, 0x77, 0x31, 0xd2, 0xb7, 0x09, 0x59, 0x53, 0xf5, 0xf2, 0xe5, 0xf1,
  0xdc, 0x92, 0x83, 0x14, 0xc1, 0xa2, 0x25, 0x62, 0x13, 0xfd, 0xd4, 0xc5, 0x54, 0x9d, 0x9c, 0x27,
  0x6c, 0xc2, 0x75, 0x8b, 0xbc, 0xc7, 0x4e, 0x0a, 0xf6, 0x5c, 0x2f, 0x12, 0x8e, 0x25, 0xbb, 0xf2,
  0x5f, 0x89, 0xaa, 0xea, 0xd9, 0xcd, 0x05, 0x74, 0x20, 0xd6, 0x17, 0xed, 0xf0, 0x66, 0x6c, 0x7b]

/-- Pack a list of bytes into a little-endian buffer numeral
(`acc`/`mult` form so that kernel reduction stays shallow). -/
def packBytesAux : List ℕ → ℕ → ℕ → ℕ
  | [], acc, _ => acc
  | b :: rest, acc, mult =>
    let acc' := acc + b * mult
    nseq acc' (packBytesAux rest acc' (mult * 256))

/-- Pack a list of bytes into a little-endian buffer numeral. -/
def packBytes (l : List ℕ) : ℕ := packBytesAux l 0 1

/-- `SEEDS` of `src/cb7.rs` as a packed 1280-byte buffer. -/
def SEEDS : ℕ := packBytes SEEDS_BYTES

/-- `ZERO_SEEDS`: 1280 zero bytes, packed. -/
def ZERO_SEEDS : ℕ := 0

/-- Word `i` of a `[u32]` view of a packed byte buffer
(`bytemuck::cast_slice`, little-endian). -/
def seedWord (s i : ℕ) : ℕ := s / 2 ^ (32 * i) % 2 ^ 32

/-- Word `i` of the packed 20-byte view of `key: [u32; 5]` (`self.key[i]`). -/
def keyWord (k i : ℕ) : ℕ := k / 2 ^ (32 * i) % 2 ^ 32

/-- `key[i] = w` on the packed 20-byte view of `key: [u32; 5]`. -/
def setWord (k i w : ℕ) : ℕ :=
  k % 2 ^ (32 * i) + w * 2 ^ (32 * i) + k / 2 ^ (32 * (i + 1)) * 2 ^ (32 * (i + 1))

/-- `RC4_KEY` of `src/cb7.rs`: five `u32`s, packed little-endian (this equals
the 20-byte `bytes_of` view used by the code). -/
def RC4_KEY : ℕ :=
  0xd0dba9d7 + 0x13a0a96c * 2 ^ 32 + 0x80410df0 * 2 ^ 64 +
    0x2ccdbe1f * 2 ^ 96 + 0xe570a86b * 2 ^ 128

/-- `BEEFCODE` constant `0xbeefc0de`. -/
def BEEFCODE : ℕ := 0xbeefc0de

/-- `RSA_DEC_KEY = 11`. -/
def RSA_DEC_KEY : ℕ := 11

/-- `RSA_ENC_KEY = 2_682_110_966_135_737_091`. -/
def RSA_ENC_KEY : ℕ := 2682110966135737091

/-- `RSA_MODULUS = 18_446_744_073_709_551_605 = 0xfffffffffffffff5`. -/
def RSA_MODULUS : ℕ := 18446744073709551605

/-- `cb7::is_beefcode`: `addr & 0xffff_fffe == BEEFCODE`. -/
def is_beefcode (addr : ℕ) : Bool := addr &&& 0xfffffffe == 0xbeefc0de

/-- `cb7::mul_encrypt`: `a.wrapping_mul(b | 1)`. -/
def mul_encrypt (a b : ℕ) : ℕ := mul32 a (b ||| 1)

/-- `cb7::mod_inverse`: four Newton steps `y ← y * (2 - y * x)` in wrapping
`u32` arithmetic, starting from `y = x`. -/
def mod_inverse (x : ℕ) : ℕ :=
  let y0 := x
  let y1 := mul32 y0 (sub32 2 (mul32 y0 x))
  let y2 := mul32 y1 (sub32 2 (mul32 y1 x))
  let y3 := mul32 y2 (sub32 2 (mul32 y2 x))
  mul32 y3 (sub32 2 (mul32 y3 x))

/-- `cb7::mul_decrypt`: `a.wrapping_mul(mod_inverse(b | 1))`. -/
def mul_decrypt (a b : ℕ) : ℕ := mul32 a (mod_inverse (b ||| 1))

/-- Fuelled binary modular exponentiation; `powMod` below shows `fuel = e`
always suffices and `powMod_eq` proves it computes `b ^ e % m`, the
mathematical meaning of `BigUint::modpow`. -/
def powModAux : ℕ → ℕ → ℕ → ℕ → ℕ
  | 0, _, _, m => 1 % m
  | fuel + 1, b, e, m =>
    if e = 0 then 1 % m
    else
      let h := powModAux fuel (b * b % m) (e / 2) m
      if e % 2 = 1 then b * h % m else h

/-- `BigUint::modpow(e, m)`: `b ^ e % m`, computed by binary exponentiation. -/
def powMod (b e m : ℕ) : ℕ := powModAux e b e m

/-- `BigUint::to_u32_digits`: little-endian base-`2^32` digits, no leading
zeros, empty for `0` (fuelled structural recursion; `n` itself is enough
fuel). -/
def u32DigitsAux : ℕ → ℕ → List ℕ
  | 0, _ => []
  | fuel + 1, n => if n = 0 then [] else n % 2 ^ 32 :: u32DigitsAux fuel (n / 2 ^ 32)

/-- `BigUint::to_u32_digits`. -/
def toU32Digits (n : ℕ) : List ℕ := u32DigitsAux n n

/-- `cb7::rsa_crypt` (src/cb7.rs lines 312-324).
`BigUint::from_slice(&[val, addr])` is the little-endian digit packing
`val + 2^32 * addr`.  The Rust code indexes `digits[1]` and `digits[0]` of the
`to_u32_digits` vector; when a digit is missing the vector access panics,
modelled as `none`. -/
def rsa_crypt (addr val rsakey modulus : ℕ) : Option (ℕ × ℕ) :=
  let code := val + 2 ^ 32 * addr
  if code < modulus then
    let digits := toU32Digits (powMod code rsakey modulus)
    match digits.get? 1, digits.get? 0 with
    | some d1, some d0 => some (d1, d0)
    | _, _ => none
  else
    some (addr, val)

/-- The v7 engine state `cb7::Cb7`: the 1280-byte seed matrix (packed), the
20-byte view of `key: [u32; 5]` (packed), and the two flags. -/
structure Cb7 where
  seeds : ℕ
  key : ℕ
  beefcodf : Bool
  initialized : Bool
deriving DecidableEq

/-- `Cb7::new()`: zeroed seeds and key, flags clear. -/
def Cb7.new : Cb7 := ⟨ZERO_SEEDS, 0, false, false⟩

/-- `seeds[r][e]` on the packed seed matrix. -/
def seedAt (s r e : ℕ) : ℕ := getByte s (256 * r + e)

/-- The key word `K_i` computed by `Cb7::beefcode` from the seed matrix `s`
and the four little-endian bytes of `val` used as indices:
`(seeds[(i+3)%4][b3] << 24) | (seeds[(i+2)%4][b2] << 16) |
 (seeds[(i+1)%4][b1] << 8) | seeds[i%4][b0]`. -/
def beefKeyWord (s val i : ℕ) : ℕ :=
  (seedAt s ((i + 3) % 4) (getByte val 3)) <<< 24 |||
    (seedAt s ((i + 2) % 4) (getByte val 2)) <<< 16 |||
    (seedAt s ((i + 1) % 4) (getByte val 1)) <<< 8 |||
    seedAt s (i % 4) (getByte val 0)

/-- The `for i in 0..4 { self.key[i] = ... }` loop of `Cb7::beefcode`:
words 0-3 of `oldKey` are replaced, word 4 is kept. -/
def beefKey (s val oldKey : ℕ) : ℕ :=
  setWord (setWord (setWord (setWord oldKey 0 (beefKeyWord s val 0))
    1 (beefKeyWord s val 1)) 2 (beefKeyWord s val 2)) 3 (beefKeyWord s val 3)

/-- The unconditional chaining pass of `Cb7::beefcode`:
`for i in 0..5 { let mut rc4 = Rc4::new(k); rc4.crypt(&mut seeds[i]); rc4.crypt(k); }`
processing the rows low row first; returns the final key bytes and the
re-encrypted seed matrix. -/
def beefChain : ℕ → ℕ → ℕ → ℕ × ℕ
  | 0, k, _ => (k, 0)
  | n + 1, k, s =>
    let r := Rc4.new k 20
    let pRow := r.crypt (s % 256 ^ 256) 256
    let pKey := pRow.1.crypt k 20
    let rest := beefChain n pKey.2 (s / 256 ^ 256)
    (rest.1, pRow.2 + 256 ^ 256 * rest.2)

/-- The body of `Cb7::beefcode(addr, val)` (src/cb7.rs lines 79-135) after
its `assert!`: the four set-up branches, the chaining pass, and the
`beefcodf` latch `addr & 1 != 0`. -/
def Cb7.beefcodeRun (c : Cb7) (addr val : ℕ) : Cb7 :=
  let ks : ℕ × ℕ :=
    if c.initialized = false then
      if val ≠ 0 then (beefKey SEEDS val RC4_KEY, SEEDS)
      else (RC4_KEY, ZERO_SEEDS)
    else if val ≠ 0 then (beefKey c.seeds val c.key, c.seeds)
    else (setWord (setWord (setWord (setWord c.key 0 0) 1 0) 2 0) 3 0, ZERO_SEEDS)
  let p := beefChain 5 ks.1 ks.2
  ⟨p.2, p.1, addr &&& 1 != 0, true⟩

/-- `Cb7::beefcode(addr, val)` including its `assert!(is_beefcode(addr))`:
`none` models the panic. -/
def Cb7.beefcode (c : Cb7) (addr val : ℕ) : Option Cb7 :=
  if is_beefcode addr then some (c.beefcodeRun addr val) else none

/-- `Cb7::default()`: `Cb7::new()` followed by `beefcode(BEEFCODE, 0)`
(the assertion holds there, so the plain body runs). -/
def Cb7.defaultEngine : Cb7 := Cb7.new.beefcodeRun BEEFCODE 0

/-- Step 4 of `Cb7::encrypt_code_mut`, iterating over the round indices:
`*addr = (addr + s[2*64+i] ^ s[i]) - (*val ^ s[4*64+i]);`
`*val = (val - s[3*64+i] ^ s[64+i]) + (*addr ^ s[4*64+i])`
(the second line uses the already-updated `*addr`). -/
def encRounds (s : ℕ) : List ℕ → ℕ × ℕ → ℕ × ℕ
  | [], av => av
  | i :: rest, av =>
    let a' := sub32 (add32 av.1 (seedWord s (2 * 64 + i)) ^^^ seedWord s i)
      (av.2 ^^^ seedWord s (4 * 64 + i))
    let v' := add32 (sub32 av.2 (seedWord s (3 * 64 + i)) ^^^ seedWord s (64 + i))
      (a' ^^^ seedWord s (4 * 64 + i))
    nseq (a' + v') (encRounds s rest (a', v'))

/-- Step 1 of `Cb7::decrypt_code_mut` (the mirror loop, `val` updated first,
iterated over the reversed round indices). -/
def decRounds (s : ℕ) : List ℕ → ℕ × ℕ → ℕ × ℕ
  | [], av => av
  | i :: rest, av =>
    let v' := add32 (sub32 av.2 (av.1 ^^^ seedWord s (4 * 64 + i)) ^^^ seedWord s (64 + i))
      (seedWord s (3 * 64 + i))
    let a' := sub32 (add32 av.1 (v' ^^^ seedWord s (4 * 64 + i)) ^^^ seedWord s i)
      (seedWord s (2 * 64 + i))
    nseq (a' + v') (decRounds s rest (a', v'))

/-- `Cb7::encrypt_code_mut` (src/cb7.rs lines 164-202), returning the updated
engine together with the encrypted code; `none` models a panic of the RSA
stage.  The multiplication stage uses `key[0] - key[1]` and `key[2] + key[3]`
(wrapping); the RC4 stage crypts the 8-byte view of `[addr, val]` keyed by the
20-byte view of `key`; after the four stages the pre-transformation code
drives the `beefcode`/`beefcodf` handling, the latter re-encrypting the seed
matrix with RC4 keyed by the 8-byte view of `[oldaddr, oldval]`. -/
def Cb7.encrypt_code (c : Cb7) (addr val : ℕ) : Option (Cb7 × ℕ × ℕ) :=
  let oldaddr := addr
  let oldval := val
  let a1 := mul_encrypt addr (sub32 (keyWord c.key 0) (keyWord c.key 1))
  let v1 := mul_encrypt val (add32 (keyWord c.key 2) (keyWord c.key 3))
  let p2 := (Rc4.new c.key 20).crypt (a1 + 2 ^ 32 * v1) 8
  let a2 := p2.2 % 2 ^ 32
  let v2 := p2.2 / 2 ^ 32
  match rsa_crypt a2 v2 RSA_ENC_KEY RSA_MODULUS with
  | none => none
  | some (a3, v3) =>
    let p4 := encRounds c.seeds (List.range 64) (a3, v3)
    if is_beefcode oldaddr then
      some (c.beefcodeRun oldaddr oldval, p4.1, p4.2)
    else if c.beefcodf then
      let q := (Rc4.new (oldaddr + 2 ^ 32 * oldval) 8).crypt c.seeds 1280
      some ({ c with seeds := q.2, beefcodf := false }, p4.1, p4.2)
    else
      some (c, p4.1, p4.2)

/-- `Cb7::decrypt_code_mut` (src/cb7.rs lines 231-266): the four inverse
stages, then the `beefcodf` seed re-encryption keyed by the 8-byte view of the
freshly decrypted `[addr, val]` (with early return), then the `beefcode`
handling of a decrypted sentinel. -/
def Cb7.decrypt_code (c : Cb7) (addr val : ℕ) : Option (Cb7 × ℕ × ℕ) :=
  let p1 := decRounds c.seeds (List.range 64).reverse (addr, val)
  match rsa_crypt p1.1 p1.2 RSA_DEC_KEY RSA_MODULUS with
  | none => none
  | some (a2, v2) =>
    let p3 := (Rc4.new c.key 20).crypt (a2 + 2 ^ 32 * v2) 8
    let a3 := p3.2 % 2 ^ 32
    let v3 := p3.2 / 2 ^ 32
    let a4 := mul_decrypt a3 (sub32 (keyWord c.key 0) (keyWord c.key 1))
    let v4 := mul_decrypt v3 (add32 (keyWord c.key 2) (keyWord c.key 3))
    if c.beefcodf then
      let q := (Rc4.new (a4 + 2 ^ 32 * v4) 8).crypt c.seeds 1280
      some ({ c with seeds := q.2, beefcodf := false }, a4, v4)
    else if is_beefcode a4 then
      some (c.beefcodeRun a4 v4, a4, v4)
    else
      some (c, a4, v4)

/-! ## Stream processor (`src/lib.rs`) -/

/-- `Scheme` of `src/lib.rs`. -/
inductive Scheme where
  | RAW : Scheme
  | V1 : Scheme
  | V7 : Scheme
deriving DecidableEq

/-- The processor state `Codebreaker` of `src/lib.rs`. -/
structure Codebreaker where
  scheme : Scheme
  cb7 : Cb7
  code_lines : ℕ
deriving DecidableEq

/-- `Codebreaker::new()`. -/
def Codebreaker.new : Codebreaker := ⟨Scheme.RAW, Cb7.new, 0⟩

/-- `Codebreaker::new_v7()`. -/
def Codebreaker.new_v7 : Codebreaker := ⟨Scheme.V7, Cb7.defaultEngine, 0⟩

/-- `Codebreaker::encrypt_code_mut` (src/lib.rs lines 109-122): dispatch on
the scheme, then rekey and switch to V7 when the pre-transformation address is
a beefcode (the `beefcode` call is guarded by `is_beefcode`, so its assertion
holds and the plain body runs). -/
def Codebreaker.encrypt_code (cb : Codebreaker) (addr val : ℕ) :
    Option (Codebreaker × ℕ × ℕ) :=
  let step : Option (Cb7 × ℕ × ℕ) :=
    if cb.scheme = Scheme.V7 then cb.cb7.encrypt_code addr val
    else some (cb.cb7, Cb1.encrypt_code addr val)
  match step with
  | none => none
  | some r =>
    if is_beefcode addr then
      some (⟨Scheme.V7, r.1.beefcodeRun addr val, cb.code_lines⟩, r.2)
    else
      some (⟨cb.scheme, r.1, cb.code_lines⟩, r.2)

/-- `Codebreaker::decrypt_code_mut` (src/lib.rs lines 176-187): dispatch on
the scheme, then rekey and switch to V7 when the post-transformation address
is a beefcode. -/
def Codebreaker.decrypt_code (cb : Codebreaker) (addr val : ℕ) :
    Option (Codebreaker × ℕ × ℕ) :=
  let step : Option (Cb7 × ℕ × ℕ) :=
    if cb.scheme = Scheme.V7 then cb.cb7.decrypt_code addr val
    else some (cb.cb7, Cb1.decrypt_code addr val)
  match step with
  | none => none
  | some r =>
    if is_beefcode r.2.1 then
      some (⟨Scheme.V7, r.1.beefcodeRun r.2.1 r.2.2, cb.code_lines⟩, r.2)
    else
      some (⟨cb.scheme, r.1, cb.code_lines⟩, r.2)

/-- `num_code_lines` of `src/lib.rs`. -/
def num_code_lines (addr : ℕ) : ℕ :=
  let cmd := addr >>> 28
  if cmd < 3 ∨ 6 < cmd then 1
  else if cmd = 3 then
    if addr &&& 0x00400000 ≠ 0 then 2 else 1
  else 2

/-- The shared tail of `Codebreaker::auto_decrypt_code_mut`: the final
`is_beefcode(*addr)` check reached by the fall-through paths. -/
def Codebreaker.autoTail (cb : Codebreaker) (a v : ℕ) : Codebreaker × ℕ × ℕ :=
  if is_beefcode a then
    (⟨Scheme.V7, cb.cb7.beefcodeRun a v, 1⟩, a, v)
  else
    (cb, a, v)

/-- `Codebreaker::auto_decrypt_code_mut` (src/lib.rs lines 222-265), with all
its early returns; `none` models a panic inside `Cb7::decrypt_code_mut`. -/
def Codebreaker.auto_decrypt_code (cb : Codebreaker) (addr val : ℕ) :
    Option (Codebreaker × ℕ × ℕ) :=
  if cb.scheme ≠ Scheme.V7 then
    if cb.code_lines = 0 then
      let n := num_code_lines addr
      if (addr >>> 24) &&& 0x0e ≠ 0 then
        if is_beefcode addr then
          -- ignore raw beefcode: decrement and return
          some (⟨cb.scheme, cb.cb7, n - 1⟩, addr, val)
        else
          let p := Cb1.decrypt_code addr val
          some (Codebreaker.autoTail ⟨Scheme.V1, cb.cb7, n - 1⟩ p.1 p.2)
      else
        some (Codebreaker.autoTail ⟨Scheme.RAW, cb.cb7, n - 1⟩ addr val)
    else
      if cb.scheme = Scheme.RAW then
        some (⟨cb.scheme, cb.cb7, cb.code_lines - 1⟩, addr, val)
      else
        let p := Cb1.decrypt_code addr val
        some (Codebreaker.autoTail ⟨cb.scheme, cb.cb7, cb.code_lines - 1⟩ p.1 p.2)
  else
    match cb.cb7.decrypt_code addr val with
    | none => none
    | some r =>
      let a := r.2.1
      let v := r.2.2
      if cb.code_lines = 0 then
        let n := num_code_lines a
        if n = 1 ∧ a = 0xffffffff then
          -- "FFFFFFFF 000xnnnn" re-encryption is not supported
          some (⟨cb.scheme, r.1, 0⟩, a, v)
        else
          some (Codebreaker.autoTail ⟨cb.scheme, r.1, n - 1⟩ a v)
      else
        some (Codebreaker.autoTail ⟨cb.scheme, r.1, cb.code_lines - 1⟩ a v)

/-- Run `encrypt_code_mut` over a list of codes in order (the iteration of the
crate's documented usage); `none` models a panic on some code. -/
def Codebreaker.encryptList (cb : Codebreaker) :
    List (ℕ × ℕ) → Option (Codebreaker × List (ℕ × ℕ))
  | [] => some (cb, [])
  | (a, v) :: rest =>
    match cb.encrypt_code a v with
    | none => none
    | some r =>
      match Codebreaker.encryptList r.1 rest with
      | none => none
      | some q => some (q.1, r.2 :: q.2)

/-- Run `decrypt_code_mut` over a list of codes in order. -/
def Codebreaker.decryptList (cb : Codebreaker) :
    List (ℕ × ℕ) → Option (Codebreaker × List (ℕ × ℕ))
  | [] => some (cb, [])
  | (a, v) :: rest =>
    match cb.decrypt_code a v with
    | none => none
    | some r =>
      match Codebreaker.decryptList r.1 rest with
      | none => none
      | some q => some (q.1, r.2 :: q.2)

/-- One call on the processor: any of the three public `_mut` operations with
its two `u32` arguments. -/
inductive CbOp where
  | enc : ℕ → ℕ → CbOp
  | dec : ℕ → ℕ → CbOp
  | auto : ℕ → ℕ → CbOp

/-- Apply one operation to the processor, keeping only the state. -/
def Codebreaker.applyOp (cb : Codebreaker) : CbOp → Option Codebreaker
  | CbOp.enc a v => (cb.encrypt_code a v).map (·.1)
  | CbOp.dec a v => (cb.decrypt_code a v).map (·.1)
  | CbOp.auto a v => (cb.auto_decrypt_code a v).map (·.1)

/-- Apply a sequence of operations in order (a panic aborts the run). -/
def Codebreaker.applyOps (cb : Codebreaker) : List CbOp → Option Codebreaker
  | [] => some cb
  | op :: rest =>
    match cb.applyOp op with
    | none => none
    | some cb' => Codebreaker.applyOps cb' rest


/-! ## Arithmetic normal forms of the cb1 address transformation

`encA`/`decA` restate the address halves of `Cb1.encrypt_code` and
`Cb1.decrypt_code` with the bit operations written as `/`, `%` and `*`
(the bridge lemmas `enc_fst` / `dec_fst` below prove them equal). -/

/-- The address half of `Cb1.encrypt_code`, in `/`-`%` arithmetic form. -/
def encA (s0 s1 a : ℕ) : ℕ :=
  (2 ^ 24 * (a / 2 ^ 24 % 2 ^ 8) +
    (2 ^ 16 * (a % 2 ^ 8) + a / 2 ^ 8 % 2 ^ 16 + s1) % 2 ^ 24) ^^^ s0

/-- The address half of `Cb1.decrypt_code` as a function of `x = addr ^^^ S0[cmd]`. -/
def decAofX (s1 x : ℕ) : ℕ :=
  2 ^ 24 * (x / 2 ^ 24 % 2 ^ 8) +
    2 ^ 8 * (sub32 x s1 % 2 ^ 16) + sub32 x s1 / 2 ^ 16 % 2 ^ 8

/-- The address half of `Cb1.decrypt_code`, in `/`-`%` arithmetic form. -/
def decA (s0 s1 a : ℕ) : ℕ := decAofX s1 (a ^^^ s0)

/-! ## Concrete engine states used by the theorems below -/

/-- The engine after `Cb7::new()` plus `beefcode(0xBEEFC0DF, 0xB16B00B5)`:
scenario "BEEFC0DF" of the `cb7` tests.  Its `beefcodf` flag is set. -/
def cb7C : Cb7 := Cb7.new.beefcodeRun 0xBEEFC0DF 0xB16B00B5

/-- The engine after `Cb7::new()` plus `beefcode(0xBEEFC0DF, 0)`:
a reachable state with the `beefcodf` flag set. -/
def cb7DF : Cb7 := Cb7.new.beefcodeRun 0xBEEFC0DF 0

/-- The claim-side description of the `beefcodf` seed re-encryption: the seed
matrix of `c` XOR-encrypted with an RC4 instance keyed by the 8 little-endian
bytes of the code `[a, v]`. -/
def seedsKeyedBy (c : Cb7) (a v : ℕ) : ℕ :=
  ((Rc4.new (a + 2 ^ 32 * v) 8).crypt c.seeds 1280).2

/-- A synthetic already-initialised engine (any `Cb7` value with
`initialized = true`); used to instantiate theorems about initialised
engines. -/
def cb7InitState : Cb7 :=
  ⟨0, 1 + 2 * 2 ^ 32 + 3 * 2 ^ 64 + 4 * 2 ^ 96 + 5 * 2 ^ 128, false, true⟩

/-- The "ignore raw beefcode" early-return condition of
`Codebreaker::auto_decrypt_code_mut`: not in V7 mode, starting a new command,
the header looks encrypted, and the address is a beefcode.  On this path the
code is returned unchanged and no scheme transition happens. -/
def autoIgnoresBeef (cb : Codebreaker) (a : ℕ) : Prop :=
  cb.scheme ≠ Scheme.V7 ∧ cb.code_lines = 0 ∧
    (a >>> 24) &&& 0x0e ≠ 0 ∧ is_beefcode a = true

/-! ## Theorems

First, `nseq` is the identity, and the embedding reproduces the crate's own
test vectors bit-exactly (tests of `src/rc4.rs`, `src/cb1.rs`, `src/cb7.rs`
and the doc examples of `src/lib.rs`). -/

theorem nseq_eq {α : Sort*} (a : ℕ) (k : α) : nseq a k = k := by
  unfold nseq; split <;> rfl

/-- RC4 Wikipedia vector: key `"Key"`, plaintext `"Plaintext"`. -/
theorem rc4_vector_key :
    ((Rc4.new (packBytes [75, 101, 121]) 3).crypt
      (packBytes [80, 108, 97, 105, 110, 116, 101, 120, 116]) 9).2 =
      packBytes [0xbb, 0xf3, 0x16, 0xe8, 0xd9, 0x40, 0xaf, 0x0a, 0xd3] := by decide

/-- RC4 Wikipedia vector: key `"Wiki"`, plaintext `"pedia"`. -/
theorem rc4_vector_wiki :
    ((Rc4.new (packBytes [87, 105, 107, 105]) 4).crypt
      (packBytes [112, 101, 100, 105, 97]) 5).2 =
      packBytes [0x10, 0x21, 0xbf, 0x04, 0x20] := by decide

/-- `cb1` test vector `0031789A 00000063 ↔ 0AC93A95 00000063`. -/
theorem cb1_vector_1 :
    Cb1.encrypt_code 0x0031789A 0x00000063 = (0x0AC93A95, 0x00000063) ∧
    Cb1.decrypt_code 0x0AC93A95 0x00000063 = (0x0031789A, 0x00000063) := by decide

/-- `cb1` test vector `902DB32C 0C0BAFF1 ↔ 9AD420D3 180DDEDA` (a `cmd > 2`
code, exercising the third table). -/
theorem cb1_vector_2 :
    Cb1.encrypt_code 0x902DB32C 0x0C0BAFF1 = (0x9AD420D3, 0x180DDEDA) ∧
    Cb1.decrypt_code 0x9AD420D3 0x180DDEDA = (0x902DB32C, 0x0C0BAFF1) := by decide

/-- `cb1` maps the canonical v7 bootstrap sentinel `BEEFC0DE 00000000` to
`B4336FA9 4DFEFB79`. -/
theorem cb1_vector_beef :
    Cb1.encrypt_code 0xBEEFC0DE 0x00000000 = (0xB4336FA9, 0x4DFEFB79) := by decide

/-- `mod_inverse` spot values from the crate's tests. -/
theorem mod_inverse_vectors :
    mod_inverse 0x0d313243 = 0x6c7b2a6b ∧ mod_inverse 0x2912dedd = 0xe09de975 ∧
    mod_inverse 0x4fd931ff = 0x9a62cdff ∧ mod_inverse 0 = 0 := by decide

/-- Scenario "default BEEFC0DE" of the `cb7` tests, first code:
`9029BEAC 0C0A9225 → D08F3A49 00078A53`. -/
theorem cb7_vector_enc :
    (Cb7.defaultEngine.encrypt_code 0x9029BEAC 0x0C0A9225).map (·.2) =
      some (0xD08F3A49, 0x00078A53) := by decide

/-- Scenario "default BEEFC0DE" of the `cb7` tests, first code decrypted:
`D08F3A49 00078A53 → 9029BEAC 0C0A9225`. -/
theorem cb7_vector_dec :
    (Cb7.defaultEngine.decrypt_code 0xD08F3A49 0x00078A53).map (·.2) =
      some (0x9029BEAC, 0x0C0A9225) := by decide

/-- Scenario "BEEFC0DF" of the `cb7` tests, first code (the second line of the
two-line sentinel): `01234567 89ABCDEF → 862316AB C59C5FB1`; this exercises
the `beefcodf` seed re-encryption path of `Cb7::encrypt_code_mut`. -/
theorem cb7_vector_beefcodf :
    (cb7C.encrypt_code 0x01234567 0x89ABCDEF).map (·.2) =
      some (0x862316AB, 0xC59C5FB1) := by decide

/-- The crate's doc example: encrypting the three-code list with a fresh
processor (the middle code is the sentinel and switches the scheme). -/
theorem lib_doc_example :
    (Codebreaker.new.encryptList
      [(0x2043AFCC, 0x2411FFFF), (0xBEEFC0DE, 0), (0x2096F5B8, 0x000000BE)]).map (·.2) =
      some [(0x2AFF014C, 0x2411FFFF), (0xB4336FA9, 0x4DFEFB79), (0x973E0B2A, 0xA7D4AF10)] := by
  decide

/-! ### C6: the `beefcode` assertion -/

/-- C6: `Cb7::beefcode(addr, val)` fails (its `assert!(is_beefcode(addr))`
panics) exactly when `addr` is not a beefcode, and succeeds otherwise:
the call returns a result iff `is_beefcode addr`. -/
theorem beefcode_guard (c : Cb7) (a v : ℕ) :
    (c.beefcode a v).isSome = is_beefcode a := by
  unfold Cb7.beefcode
  by_cases h : is_beefcode a <;> simp [h]

/-! ### C7: the RSA stage -/

/-- C7 (code bug): on input `(addr, val) = (0, 1)` the packed value is
`M = 1 < N`, and `M^e mod N = 1` (likewise `M^d mod N = 1`), whose
`to_u32_digits` vector is `[1]`; the access `digits[1]` is out of bounds, so
`rsa_crypt` panics instead of repacking the result as the claim states.
Inputs with `M ≥ N` are passed through unchanged, as the claim states. -/
theorem rsa_crypt_failing :
    rsa_crypt 0 1 RSA_ENC_KEY RSA_MODULUS = none ∧
    rsa_crypt 0 1 RSA_DEC_KEY RSA_MODULUS = none ∧
    rsa_crypt 0xFFFFFFFF 0xFFFFFFFF RSA_ENC_KEY RSA_MODULUS =
      some (0xFFFFFFFF, 0xFFFFFFFF) := by decide

/-! ### C1: the v7 round trip -/

/-- C1 (code bug): encrypting the legal two-code list
`[BEEFC0DE 00000000, 2915DAB9 2E7A1444]` with a fresh `Codebreaker` panics
(stage 3 of the v7 encryption computes `M^e mod N = 1` and indexes
`digits[1]` of the one-element digit vector), so no encrypted list exists to
decrypt; the round trip fails.  The second code is not a sentinel, so the
list is legal. -/
theorem encrypt_list_panics :
    Codebreaker.new.encryptList [(0xBEEFC0DE, 0), (0x2915DAB9, 0x2E7A1444)] = none ∧
    is_beefcode 0x2915DAB9 = false := by decide

/-! ### C4: the sentinel transition -/


/-- C4 (counterexample): `auto_decrypt_code_mut` on a fresh processor given the
code `BEEFC0DE 00000000` hits the "ignore raw beefcode" early return: the code
(which satisfies `is_beefcode`, both as input and as unchanged output) is
processed, but the scheme afterwards is `RAW`, not `V7`, refuting the claim
for `auto_decrypt_code_mut`. -/
theorem auto_ignores_raw_beefcode :
    Codebreaker.new.auto_decrypt_code 0xBEEFC0DE 0 =
      some (⟨Scheme.RAW, Cb7.new, 0⟩, 0xBEEFC0DE, 0) ∧
    is_beefcode 0xBEEFC0DE = true ∧ Scheme.RAW ≠ Scheme.V7 := by decide

-- C3 amended

/-- If the code produced by the shared final `is_beefcode` check of
`auto_decrypt_code_mut` is a beefcode, the scheme after the check is `V7`. -/
theorem autoTail_spec (s : Codebreaker) (a v : ℕ)
    (h : is_beefcode (Codebreaker.autoTail s a v).2.1 = true) :
    (Codebreaker.autoTail s a v).1.scheme = Scheme.V7 := by
  unfold Codebreaker.autoTail at h ⊢
  split at h
  · next hc => simp [hc]
  · next hc => exact absurd h hc

-- C4 amended

/-- C4 (amended): after `encrypt_code_mut` on an input code satisfying
`is_beefcode`, and after `decrypt_code_mut` whose decrypted output satisfies
`is_beefcode`, the scheme is `V7`; after `auto_decrypt_code_mut` whose output
satisfies `is_beefcode` the scheme is `V7` unless the processor was not in V7
mode and consumed the code as a raw line (the ignored raw beefcode starting a
command, or a continuation line of a `RAW` command). -/
theorem sentinel_transition_amended (cb : Codebreaker) (a v : ℕ) :
    ((cb.encrypt_code a v).elim True fun r =>
      is_beefcode a = true → r.1.scheme = Scheme.V7) ∧
    ((cb.decrypt_code a v).elim True fun r =>
      is_beefcode r.2.1 = true → r.1.scheme = Scheme.V7) ∧
    ((cb.auto_decrypt_code a v).elim True fun r =>
      is_beefcode r.2.1 = true → ¬ autoIgnoresBeef cb a →
      ¬ (cb.scheme = Scheme.RAW ∧ cb.code_lines ≠ 0) →
      r.1.scheme = Scheme.V7) := by
  refine ⟨?_, ?_, ?_⟩
  · simp only [Codebreaker.encrypt_code]
    split
    · trivial
    · split
      · simp [Option.elim]
      · next hc => simp only [Option.elim]; intro hbeef; exact absurd hbeef hc
  · simp only [Codebreaker.decrypt_code]
    split
    · trivial
    · split
      · simp [Option.elim]
      · next hc => simp only [Option.elim]; intro hbeef; exact absurd hbeef hc
  · simp only [Codebreaker.auto_decrypt_code]
    split
    · next hV7 =>
      -- non-V7 branch
      split
      · next hlines =>
        split
        · next hdr =>
          split
          · next hbeef =>
            -- ignore-raw-beefcode early return: contradicts ¬autoIgnoresBeef
            simp only [Option.elim]
            intro hb hP1 _
            exact absurd ⟨hV7, hlines, hdr, hbeef⟩ hP1
          · simp only [Option.elim]
            intro hb _ _
            exact autoTail_spec _ _ _ hb
        · simp only [Option.elim]
          intro hb _ _
          exact autoTail_spec _ _ _ hb
      · next hlines =>
        split
        · next hraw =>
          simp only [Option.elim]
          intro hb _ hP2
          exact absurd ⟨hraw, hlines⟩ hP2
        · simp only [Option.elim]
          intro hb _ _
          exact autoTail_spec _ _ _ hb
    · -- V7 branch
      split
      · trivial
      · split
        · split
          · -- FFFFFFFF early return
            next hff =>
            simp only [Option.elim]
            intro hb _ _
            rw [hff.2] at hb
            exact Bool.noConfusion hb
          · simp only [Option.elim]
            intro hb _ _
            exact autoTail_spec _ _ _ hb
        · simp only [Option.elim]
          intro hb _ _
          exact autoTail_spec _ _ _ hb

-- C8

/-- Instantiation of `sentinel_transition_amended` at a concrete input. -/
theorem sentinel_transition_amended_witness :
    ((Codebreaker.new.encrypt_code 0xBEEFC0DE 0).elim True fun r =>
      is_beefcode 0xBEEFC0DE = true → r.1.scheme = Scheme.V7) ∧
    ((Codebreaker.new.decrypt_code 0xB4336FA9 0x4DFEFB79).elim True fun r =>
      is_beefcode r.2.1 = true → r.1.scheme = Scheme.V7) ∧
    ((Codebreaker.new.auto_decrypt_code 0xB4336FA9 0x4DFEFB79).elim True fun r =>
      is_beefcode r.2.1 = true → ¬ autoIgnoresBeef Codebreaker.new 0xB4336FA9 →
      ¬ (Codebreaker.new.scheme = Scheme.RAW ∧ Codebreaker.new.code_lines ≠ 0) →
      r.1.scheme = Scheme.V7) :=
  sentinel_transition_amended Codebreaker.new 0xB4336FA9 0x4DFEFB79
    |>.imp (fun h hb => h hb) id |>.imp_left
      (fun _ hb => (sentinel_transition_amended Codebreaker.new 0xBEEFC0DE 0).1 hb)


/-! ### C9: the scheme never leaves V7 -/


/-- `Codebreaker::encrypt_code_mut` keeps the scheme at `V7`. -/
theorem enc_keeps_v7 (cb : Codebreaker) (a v : ℕ) (h : cb.scheme = Scheme.V7) :
    (cb.encrypt_code a v).elim True fun r => r.1.scheme = Scheme.V7 := by
  simp only [Codebreaker.encrypt_code]
  split
  · trivial
  · split <;> simp [h, Option.elim]

/-- `Codebreaker::decrypt_code_mut` keeps the scheme at `V7`. -/
theorem dec_keeps_v7 (cb : Codebreaker) (a v : ℕ) (h : cb.scheme = Scheme.V7) :
    (cb.decrypt_code a v).elim True fun r => r.1.scheme = Scheme.V7 := by
  simp only [Codebreaker.decrypt_code]
  split
  · trivial
  · split <;> simp [h, Option.elim]

/-- `Codebreaker::auto_decrypt_code_mut` keeps the scheme at `V7`. -/
theorem auto_keeps_v7 (cb : Codebreaker) (a v : ℕ) (h : cb.scheme = Scheme.V7) :
    (cb.auto_decrypt_code a v).elim True fun r => r.1.scheme = Scheme.V7 := by
  simp only [Codebreaker.auto_decrypt_code, h, Codebreaker.autoTail]
  simp only [ne_eq, not_true_eq_false, if_false]
  split
  · trivial
  · split
    · split
      · simp [Option.elim]
      · split <;> simp [Option.elim]
    · split <;> simp [Option.elim]

-- C9 list version

/-- C9: once a processor's scheme is `V7` it stays `V7`: no sequence of
`encrypt_code_mut` / `decrypt_code_mut` / `auto_decrypt_code_mut` calls, on
any codes, ever brings it back to `RAW` or `V1` (as long as the run does not
abort with a panic). -/
theorem scheme_v7_latch (cb : Codebreaker) (ops : List CbOp) (h : cb.scheme = Scheme.V7) :
    (cb.applyOps ops).elim True fun cb' => cb'.scheme = Scheme.V7 := by
  induction ops generalizing cb with
  | nil => simpa [Codebreaker.applyOps, Option.elim] using h
  | cons op rest ih =>
    simp only [Codebreaker.applyOps]
    cases hstep : cb.applyOp op with
    | none => trivial
    | some cb' =>
      apply ih
      have hs : ∀ o : Option (Codebreaker × ℕ × ℕ),
          (o.elim True fun r => r.1.scheme = Scheme.V7) → o.map (·.1) = some cb' →
          cb'.scheme = Scheme.V7 := by
        intro o helim hmap
        cases o with
        | none => exact Option.noConfusion hmap
        | some r =>
          simp only [Option.map, Option.some.injEq] at hmap
          rw [← hmap]
          exact helim
      cases op with
      | enc a v =>
        exact hs _ (enc_keeps_v7 cb a v h) hstep
      | dec a v =>
        exact hs _ (dec_keeps_v7 cb a v h) hstep
      | auto a v =>
        exact hs _ (auto_keeps_v7 cb a v h) hstep

-- C4 amended helper

/-- Witness: `scheme_v7_latch` applied to `Codebreaker::new_v7()` and a concrete run. -/
theorem scheme_v7_latch_witness :
    (Codebreaker.new_v7.applyOps [CbOp.enc 1 2, CbOp.dec 3 4, CbOp.auto 5 6]).elim True
      fun cb' => cb'.scheme = Scheme.V7 :=
  scheme_v7_latch Codebreaker.new_v7 [CbOp.enc 1 2, CbOp.dec 3 4, CbOp.auto 5 6] rfl


/-! ### C10: the state frame of the v7 per-code transforms -/


/-- C10: with `beefcodf` clear, `Cb7::encrypt_code_mut` on a non-beefcode
input and `Cb7::decrypt_code_mut` whose decrypted output address is not a
beefcode (with no condition on the input address) leave all four engine
fields unchanged (whenever they return at all). -/
theorem cb7_frame (c : Cb7) (a v : ℕ) (hb : c.beefcodf = false) :
    (is_beefcode a = false →
      (c.encrypt_code a v).elim True fun r => r.1 = c) ∧
    ((c.decrypt_code a v).elim True fun r => is_beefcode r.2.1 = false → r.1 = c) := by
  constructor
  · intro ha
    simp only [Cb7.encrypt_code]
    split
    · trivial
    · simp [ha, hb, Option.elim]
  · simp only [Cb7.decrypt_code]
    split
    · trivial
    · simp only [hb, Bool.false_eq_true, if_false]
      split
      · next hbeef =>
        simp only [Option.elim]
        intro hfalse
        simp only [hbeef] at hfalse
        exact Bool.noConfusion hfalse
      · simp [Option.elim]

-- C9 single steps

/-- Witness: `cb7_frame` at a concrete initialised engine and code, with the
non-beefcode premise of the encrypt conjunct discharged concretely. -/
theorem cb7_frame_witness :
    ((cb7InitState.encrypt_code 3 4).elim True fun r => r.1 = cb7InitState) ∧
    ((cb7InitState.decrypt_code 3 4).elim True fun r =>
      is_beefcode r.2.1 = false → r.1 = cb7InitState) :=
  (cb7_frame cb7InitState 3 4 rfl).imp_left fun h => h (by decide)


/-! ### C3: the beefcodf seed re-encryption keying -/


/-- C3 (amended): in `Cb7::encrypt_code_mut` with `beefcodf` set and a
non-beefcode input, the seed matrix is XOR-encrypted with an RC4 instance
keyed by the 8 little-endian bytes of the **pre-transformation** (input)
code `[oldaddr, oldval]` — not the freshly encrypted pair — and `beefcodf`
is cleared; key and `initialized` are untouched. -/
theorem beefcodf_keying_amended (c : Cb7) (a v : ℕ) (hb : c.beefcodf = true)
    (ha : is_beefcode a = false) :
    (c.encrypt_code a v).elim True fun r =>
      r.1.seeds = seedsKeyedBy c a v ∧ r.1.beefcodf = false ∧
      r.1.key = c.key ∧ r.1.initialized = c.initialized := by
  simp only [Cb7.encrypt_code, seedsKeyedBy]
  split
  · trivial
  · simp [ha, hb, Option.elim]

-- C10

/-- C3 (counterexample): encrypting `(1, 2)` on the reachable state `cb7DF`
(fresh engine after `beefcode(0xBEEFC0DF, 0)`, so `beefcodf` is set)
succeeds and clears `beefcodf`, but the resulting seed matrix differs from
the seed matrix XOR-encrypted with RC4 keyed by the post-transformation
(encrypted) code, refuting the claim as stated. -/
theorem beefcodf_keying_counterexample :
    Option.any (fun r =>
        decide (r.1.seeds ≠ seedsKeyedBy cb7DF r.2.1 r.2.2) && (r.1.beefcodf == false))
      (cb7DF.encrypt_code 1 2) = true := by decide

-- witnesses

/-- Witness: `beefcodf_keying_amended` at the reachable state `cb7DF`. -/
theorem beefcodf_keying_amended_witness :
    (cb7DF.encrypt_code 1 2).elim True fun r =>
      r.1.seeds = seedsKeyedBy cb7DF 1 2 ∧ r.1.beefcodf = false ∧
      r.1.key = cb7DF.key ∧ r.1.initialized = cb7DF.initialized :=
  beefcodf_keying_amended cb7DF 1 2 rfl (by decide)


/-! ### C8: the double default beefcode -/


/-- C8: `beefcode(addr, 0)` on an already-initialised engine zeroes the whole
seed matrix and the key words 0-3 while leaving key word 4 untouched, and
only then runs the unconditional RC4 chaining pass over the five seed rows
and the key. -/
theorem beefcode_zero_initialized (c : Cb7) (addr : ℕ)
    (hb : is_beefcode addr = true) (hinit : c.initialized = true) :
    c.beefcode addr 0 =
      some ⟨(beefChain 5 (setWord (setWord (setWord (setWord c.key 0 0) 1 0) 2 0) 3 0)
              ZERO_SEEDS).2,
            (beefChain 5 (setWord (setWord (setWord (setWord c.key 0 0) 1 0) 2 0) 3 0)
              ZERO_SEEDS).1,
            addr &&& 1 != 0, true⟩ ∧
    keyWord (setWord (setWord (setWord (setWord c.key 0 0) 1 0) 2 0) 3 0) 0 = 0 ∧
    keyWord (setWord (setWord (setWord (setWord c.key 0 0) 1 0) 2 0) 3 0) 1 = 0 ∧
    keyWord (setWord (setWord (setWord (setWord c.key 0 0) 1 0) 2 0) 3 0) 2 = 0 ∧
    keyWord (setWord (setWord (setWord (setWord c.key 0 0) 1 0) 2 0) 3 0) 3 = 0 ∧
    keyWord (setWord (setWord (setWord (setWord c.key 0 0) 1 0) 2 0) 3 0) 4 = keyWord c.key 4 := by
  constructor
  · simp only [Cb7.beefcode, Cb7.beefcodeRun, hb, hinit, if_true]
    norm_num
  · simp only [keyWord, setWord]
    norm_num
    omega

-- C3 counterexample

/-- Witness: `beefcode_zero_initialized` at a concrete initialised engine. -/
theorem beefcode_zero_initialized_witness :
    cb7InitState.beefcode 0xBEEFC0DE 0 =
      some ⟨(beefChain 5 (setWord (setWord (setWord (setWord cb7InitState.key 0 0) 1 0) 2 0) 3 0)
              ZERO_SEEDS).2,
            (beefChain 5 (setWord (setWord (setWord (setWord cb7InitState.key 0 0) 1 0) 2 0) 3 0)
              ZERO_SEEDS).1,
            0xBEEFC0DE &&& 1 != 0, true⟩ ∧
    keyWord (setWord (setWord (setWord (setWord cb7InitState.key 0 0) 1 0) 2 0) 3 0) 0 = 0 ∧
    keyWord (setWord (setWord (setWord (setWord cb7InitState.key 0 0) 1 0) 2 0) 3 0) 1 = 0 ∧
    keyWord (setWord (setWord (setWord (setWord cb7InitState.key 0 0) 1 0) 2 0) 3 0) 2 = 0 ∧
    keyWord (setWord (setWord (setWord (setWord cb7InitState.key 0 0) 1 0) 2 0) 3 0) 3 = 0 ∧
    keyWord (setWord (setWord (setWord (setWord cb7InitState.key 0 0) 1 0) 2 0) 3 0) 4 =
      keyWord cb7InitState.key 4 :=
  beefcode_zero_initialized cb7InitState 0xBEEFC0DE (by decide) rfl

-- C5


/-! ### `powMod` agrees with modular exponentiation -/


/-- The fuelled loop of `powMod` computes `b ^ e % m` whenever `e ≤ fuel`. -/
theorem powModAux_eq (fuel : ℕ) : ∀ b e m, e ≤ fuel → powModAux fuel b e m = b ^ e % m := by
  induction fuel with
  | zero =>
    intro b e m he
    have h0 : e = 0 := by omega
    subst h0
    simp [powModAux]
  | succ fuel ih =>
    intro b e m he
    unfold powModAux
    by_cases h0 : e = 0
    · subst h0; simp
    · simp only [h0, if_false]
      rw [ih (b * b % m) (e / 2) m (by omega)]
      have hbb : (b * b % m) ^ (e / 2) % m = (b ^ 2) ^ (e / 2) % m := by
        rw [← Nat.pow_mod, show b * b = b ^ 2 by ring]
      by_cases h1 : e % 2 = 1
      · simp only [h1, if_true]
        rw [hbb]
        conv_rhs => rw [show e = 2 * (e / 2) + 1 by omega, pow_succ, pow_mul]
        rw [Nat.mul_mod, Nat.mod_mod_of_dvd _ (dvd_refl m)]
        conv_rhs => rw [Nat.mul_mod]
        rw [Nat.mul_comm]
      · simp only [h1, if_false]
        rw [hbb, ← pow_mul, show 2 * (e / 2) = e by omega]

/-- `powMod` (the model of `BigUint::modpow`) computes `b ^ e % m`. -/
theorem powMod_eq (b e m : ℕ) : powMod b e m = b ^ e % m :=
  powModAux_eq e b e m le_rfl


/-! ### C5: `mod_inverse` -/


/-- C5: for every odd `x`, the four-step Newton iteration of `mod_inverse`
returns the multiplicative inverse of `x` modulo `2^32`
(`x * mod_inverse x % 2^32 = 1`); in particular `mod_inverse 1 = 1` and
`mod_inverse 0xFFFFFFFF = 0xFFFFFFFF`. -/
theorem mod_inverse_correct (x : ℕ) (hx : x % 2 = 1) :
    x * mod_inverse x % 2 ^ 32 = 1 ∧ mod_inverse 1 = 1 ∧
    mod_inverse 0xFFFFFFFF = 0xFFFFFFFF := by
  refine ⟨?_, by decide, by decide⟩
  have cmul : ∀ a b : ℕ, ((mul32 a b : ℕ) : ℤ) ≡ (a : ℤ) * b [ZMOD 2 ^ 32] := by
    intro a b
    show ((mul32 a b : ℕ) : ℤ) % 2 ^ 32 = ((a : ℤ) * b) % 2 ^ 32
    unfold mul32
    push_cast
    generalize (a : ℤ) * (b : ℤ) = q
    omega
  have csub : ∀ b : ℕ, ((sub32 2 b : ℕ) : ℤ) ≡ 2 - (b : ℤ) [ZMOD 2 ^ 32] := by
    intro b
    show ((sub32 2 b : ℕ) : ℤ) % 2 ^ 32 = (2 - (b : ℤ)) % 2 ^ 32
    unfold sub32
    have hle : b % 2 ^ 32 ≤ 2 ^ 32 := le_of_lt (Nat.mod_lt _ (by norm_num))
    push_cast [hle]
    omega
  have cstep : ∀ y : ℕ, ((mul32 y (sub32 2 (mul32 y x)) : ℕ) : ℤ) ≡
      (y : ℤ) * (2 - (y : ℤ) * x) [ZMOD 2 ^ 32] := by
    intro y
    calc ((mul32 y (sub32 2 (mul32 y x)) : ℕ) : ℤ)
        ≡ (y : ℤ) * ((sub32 2 (mul32 y x) : ℕ) : ℤ) [ZMOD 2 ^ 32] := cmul _ _
      _ ≡ (y : ℤ) * (2 - ((mul32 y x : ℕ) : ℤ)) [ZMOD 2 ^ 32] :=
          Int.ModEq.mul_left _ (csub _)
      _ ≡ (y : ℤ) * (2 - (y : ℤ) * x) [ZMOD 2 ^ 32] :=
          Int.ModEq.mul_left _ (Int.ModEq.sub (Int.ModEq.refl 2) (cmul _ _))
  have key : ∀ (k m : ℕ) (y : ℕ), m ≤ 2 * k → m ≤ 32 →
      (2 : ℤ) ^ k ∣ ((x : ℤ) * y - 1) →
      (2 : ℤ) ^ m ∣ ((x : ℤ) * (mul32 y (sub32 2 (mul32 y x)) : ℕ) - 1) := by
    intro k m y hm2k hm32 hdvd
    have h1 : ((x : ℤ) * (mul32 y (sub32 2 (mul32 y x)) : ℕ) - 1) ≡
        (x : ℤ) * ((y : ℤ) * (2 - (y : ℤ) * x)) - 1 [ZMOD 2 ^ 32] :=
      Int.ModEq.sub (Int.ModEq.mul_left _ (cstep y)) (Int.ModEq.refl 1)
    have h2 : (x : ℤ) * ((y : ℤ) * (2 - (y : ℤ) * x)) - 1 = -((x : ℤ) * y - 1) ^ 2 := by
      ring
    obtain ⟨d, hd⟩ := h1.dvd
    have hmin1 : (2 : ℤ) ^ m ∣ (2 : ℤ) ^ 32 := pow_dvd_pow 2 hm32
    have hmin2 : (2 : ℤ) ^ m ∣ ((x : ℤ) * y - 1) ^ 2 := by
      refine dvd_trans (pow_dvd_pow 2 hm2k) ?_
      have h3 : ((2 : ℤ) ^ k) ^ 2 ∣ ((x : ℤ) * y - 1) ^ 2 := pow_dvd_pow_of_dvd hdvd 2
      rwa [← pow_mul, Nat.mul_comm k 2] at h3
    have hrw : (x : ℤ) * (mul32 y (sub32 2 (mul32 y x)) : ℕ) - 1 =
        -((x : ℤ) * y - 1) ^ 2 - 2 ^ 32 * d := by
      rw [← h2]
      linarith [hd]
    rw [hrw]
    exact dvd_sub (dvd_neg.mpr hmin2) (hmin1.mul_right d)
  have h3dvd : (2 : ℤ) ^ 3 ∣ ((x : ℤ) * x - 1) := by
    obtain ⟨m, hm⟩ : ∃ m, x = 2 * m + 1 := ⟨x / 2, by omega⟩
    obtain ⟨c, hc⟩ := Int.even_mul_succ_self (m : ℤ)
    refine ⟨c, ?_⟩
    subst hm
    push_cast
    nlinarith [hc]
  set y1 := mul32 x (sub32 2 (mul32 x x)) with hy1
  set y2 := mul32 y1 (sub32 2 (mul32 y1 x)) with hy2
  set y3 := mul32 y2 (sub32 2 (mul32 y2 x)) with hy3
  set y4 := mul32 y3 (sub32 2 (mul32 y3 x)) with hy4
  have hmi : mod_inverse x = y4 := by
    rw [hy4, hy3, hy2, hy1]
    rfl
  have s0 : (2 : ℤ) ^ 6 ∣ ((x : ℤ) * y1 - 1) := key 3 6 x (by norm_num) (by norm_num) h3dvd
  have s1 : (2 : ℤ) ^ 12 ∣ ((x : ℤ) * y2 - 1) := key 6 12 y1 (by norm_num) (by norm_num) s0
  have s2 : (2 : ℤ) ^ 24 ∣ ((x : ℤ) * y3 - 1) := key 12 24 y2 (by norm_num) (by norm_num) s1
  have s3 : (2 : ℤ) ^ 32 ∣ ((x : ℤ) * y4 - 1) := key 24 32 y3 (by norm_num) (by norm_num) s2
  rw [← hmi] at s3
  obtain ⟨c, hc⟩ := s3
  have hc' : ((x * mod_inverse x : ℕ) : ℤ) - 1 = 2 ^ 32 * c := by
    push_cast
    linarith [hc]
  generalize (x * mod_inverse x : ℕ) = p at hc' ⊢
  omega

-- C2 bit lemmas

/-- Witness: `mod_inverse_correct` at the odd value 3. -/
theorem mod_inverse_correct_witness :
    3 % 2 = 1 ∧ (3 * mod_inverse 3 % 2 ^ 32 = 1 ∧ mod_inverse 1 = 1 ∧
      mod_inverse 0xFFFFFFFF = 0xFFFFFFFF) :=
  ⟨by decide, mod_inverse_correct 3 (by decide)⟩

-- powMod computes modpow


/-! ### C2: the v1 round trip -/


/-- Dividing by a power of two distributes over `^^^`. -/
theorem xor_div_pow (x y n : ℕ) : (x ^^^ y) / 2 ^ n = x / 2 ^ n ^^^ y / 2 ^ n := by
  simp only [← Nat.shiftRight_eq_div_pow]
  apply Nat.eq_of_testBit_eq
  intro i
  simp [Nat.testBit_shiftRight, Nat.testBit_xor]

/-- Reducing modulo a power of two distributes over `^^^`. -/
theorem xor_mod_pow (x y n : ℕ) : (x ^^^ y) % 2 ^ n = x % 2 ^ n ^^^ y % 2 ^ n := by
  rw [← Nat.and_pow_two_sub_one_eq_mod (x ^^^ y), ← Nat.and_pow_two_sub_one_eq_mod x,
    ← Nat.and_pow_two_sub_one_eq_mod y]
  exact Nat.and_xor_distrib_right

/-- Masking with a shifted all-ones window extracts a byte field. -/
theorem and_window (x k m : ℕ) :
    x &&& ((2 ^ k - 1) * 2 ^ m) = 2 ^ m * (x / 2 ^ m % 2 ^ k) := by
  apply Nat.eq_of_testBit_eq
  intro i
  rw [show (2 ^ k - 1) * 2 ^ m = (2 ^ k - 1) <<< m by rw [Nat.shiftLeft_eq],
    show 2 ^ m * (x / 2 ^ m % 2 ^ k) = (x / 2 ^ m % 2 ^ k) <<< m by
      rw [Nat.shiftLeft_eq]; ring]
  simp only [Nat.testBit_and, Nat.testBit_shiftLeft, Nat.testBit_two_pow_sub_one,
    Nat.testBit_mod_two_pow, ← Nat.shiftRight_eq_div_pow, Nat.testBit_shiftRight]
  by_cases h : m ≤ i
  · simp [h, Nat.add_sub_cancel' h, Bool.and_assoc, Bool.and_comm]
  · simp [ge_iff_le, h]

/-- `^^^` of two 32-bit values is a 32-bit value. -/
theorem xor_lt_32 {x y : ℕ} (hx : x < 2 ^ 32) (hy : y < 2 ^ 32) : x ^^^ y < 2 ^ 32 :=
  Nat.xor_lt_two_pow hx hy

-- mask lemmas with the literal constants of src/cb1.rs

/-- `x & 0xff` is `x % 2^8`. -/
theorem and_ff (a : ℕ) : a &&& 0xff = a % 2 ^ 8 := by
  have h := Nat.and_pow_two_sub_one_eq_mod a 8
  norm_num at h ⊢
  exact h

/-- `x & 0xffff` is `x % 2^16`. -/
theorem and_ffff (a : ℕ) : a &&& 0xffff = a % 2 ^ 16 := by
  have h := Nat.and_pow_two_sub_one_eq_mod a 16
  norm_num at h ⊢
  exact h

/-- `x & 0xffffff` is `x % 2^24`. -/
theorem and_ffffff (a : ℕ) : a &&& 0xffffff = a % 2 ^ 24 := by
  have h := Nat.and_pow_two_sub_one_eq_mod a 24
  norm_num at h ⊢
  exact h

/-- `x & 0xff000000` extracts byte 3. -/
theorem and_ff000000 (a : ℕ) : a &&& 0xff000000 = 2 ^ 24 * (a / 2 ^ 24 % 2 ^ 8) := by
  have h := and_window a 8 24
  norm_num at h ⊢
  exact h

/-- `x >> 28` is `x / 2^28`. -/
theorem shr28 (a : ℕ) : a >>> 28 = a / 2 ^ 28 := by
  rw [Nat.shiftRight_eq_div_pow]

/-- `x >> 8` is `x / 2^8`. -/
theorem shr8 (a : ℕ) : a >>> 8 = a / 2 ^ 8 := by
  rw [Nat.shiftRight_eq_div_pow]

/-- `x >> 16` is `x / 2^16`. -/
theorem shr16 (a : ℕ) : a >>> 16 = a / 2 ^ 16 := by
  rw [Nat.shiftRight_eq_div_pow]

-- disjoint-or lemmas

/-- `|||` of a multiple of `2^24` and a low 24-bit value is their sum. -/
theorem or_hi24 (t m : ℕ) (hm : m < 2 ^ 24) : 2 ^ 24 * t ||| m = 2 ^ 24 * t + m :=
  (Nat.mul_add_lt_is_or hm t).symm

/-- `|||` of a multiple of `2^16` and a low 16-bit value is their sum. -/
theorem or_hi16 (q b : ℕ) (hb : b < 2 ^ 16) : 2 ^ 16 * q ||| b = 2 ^ 16 * q + b :=
  (Nat.mul_add_lt_is_or hb q).symm

/-- The three-field `|||` of `cb1::decrypt_code` is a sum. -/
theorem or3_eq (t m l : ℕ) (hm : m < 2 ^ 16) (hl : l < 2 ^ 8) :
    2 ^ 24 * t ||| 2 ^ 8 * m ||| l = 2 ^ 24 * t + 2 ^ 8 * m + l := by
  rw [or_hi24 t (2 ^ 8 * m) (by omega),
    show 2 ^ 24 * t + 2 ^ 8 * m = 2 ^ 8 * (2 ^ 16 * t + m) by ring,
    (Nat.mul_add_lt_is_or hl (2 ^ 16 * t + m)).symm]

-- arithmetic normal forms of the cb1 address transformation

/-- Bridge: the address half of `cb1::encrypt_code` equals `encA`. -/
theorem enc_fst (a v : ℕ) :
    (Cb1.encrypt_code a v).1 =
      encA (Cb1.seed 0 (a >>> 28)) (Cb1.seed 1 (a >>> 28)) a := by
  show (Cb1.encrypt_code a v).1 = _
  simp only [Cb1.encrypt_code, encA, add32]
  rw [and_ff, and_ffff, and_ff000000, shr8, Nat.shiftLeft_eq]
  rw [show a % 2 ^ 8 * 2 ^ 16 = 2 ^ 16 * (a % 2 ^ 8) by ring]
  rw [or_hi16 _ _ (by omega)]
  rw [and_ffffff, Nat.mod_mod_of_dvd _ (by norm_num : (2:ℕ) ^ 24 ∣ 2 ^ 32)]
  rw [or_hi24 _ _ (by omega)]

/-- Bridge: the value half of `cb1::encrypt_code`. -/
theorem enc_snd (a v : ℕ) :
    (Cb1.encrypt_code a v).2 =
      if 2 < a >>> 28 then
        (Cb1.encrypt_code a v).1 ^^^ (v + Cb1.seed 2 (a >>> 28)) % 2 ^ 32
      else v := by
  simp only [Cb1.encrypt_code, add32]

/-- Bridge: the address half of `cb1::decrypt_code` equals `decA`. -/
theorem dec_fst (a v : ℕ) :
    (Cb1.decrypt_code a v).1 =
      decA (Cb1.seed 0 (a >>> 28)) (Cb1.seed 1 (a >>> 28)) a := by
  simp only [Cb1.decrypt_code, decA, decAofX]
  rw [and_ffff, and_ff, and_ff000000, shr16, Nat.shiftLeft_eq]
  rw [show sub32 (a ^^^ Cb1.seed 0 (a >>> 28)) (Cb1.seed 1 (a >>> 28)) % 2 ^ 16 * 2 ^ 8 =
    2 ^ 8 * (sub32 (a ^^^ Cb1.seed 0 (a >>> 28)) (Cb1.seed 1 (a >>> 28)) % 2 ^ 16) by ring]
  rw [or3_eq _ _ _ (by omega) (by omega)]

/-- Bridge: the value half of `cb1::decrypt_code`. -/
theorem dec_snd (a v : ℕ) :
    (Cb1.decrypt_code a v).2 =
      if 2 < a >>> 28 then sub32 (a ^^^ v) (Cb1.seed 2 (a >>> 28)) else v := by
  simp only [Cb1.decrypt_code]

/-- `encA` preserves the command nibble (the top nibble of `S0[cmd]` is 0). -/
theorem encA_div (s0 s1 a : ℕ) (ha : a < 2 ^ 32) (hs0 : s0 < 2 ^ 28) :
    encA s0 s1 a >>> 28 = a >>> 28 := by
  rw [shr28, shr28]
  unfold encA
  rw [xor_div_pow, show s0 / 2 ^ 28 = 0 by omega, Nat.xor_zero]
  omega

/-- `decA` preserves the command nibble. -/
theorem decA_div (s0 s1 a : ℕ) (ha : a < 2 ^ 32) (hs0 : s0 < 2 ^ 28) :
    decA s0 s1 a >>> 28 = a >>> 28 := by
  rw [shr28, shr28]
  unfold decA decAofX sub32
  have hx : (a ^^^ s0) / 2 ^ 28 = a / 2 ^ 28 := by
    rw [xor_div_pow, show s0 / 2 ^ 28 = 0 by omega, Nat.xor_zero]
  have hxlt : a ^^^ s0 < 2 ^ 32 := xor_lt_32 ha (lt_trans hs0 (by norm_num))
  generalize (a ^^^ s0) = x at hx hxlt
  omega

/-- `decA` inverts `encA`. -/
theorem core1 (s0 s1 a : ℕ) (ha : a < 2 ^ 32) :
    decA s0 s1 (encA s0 s1 a) = a := by
  unfold decA encA
  rw [Nat.xor_cancel_right]
  unfold decAofX sub32
  have h1 : (2 ^ 24 * (a / 2 ^ 24 % 2 ^ 8) +
      (2 ^ 16 * (a % 2 ^ 8) + a / 2 ^ 8 % 2 ^ 16 + s1) % 2 ^ 24) / 2 ^ 24 % 2 ^ 8 =
      a / 2 ^ 24 := by omega
  have h2 : ((2 ^ 24 * (a / 2 ^ 24 % 2 ^ 8) +
      (2 ^ 16 * (a % 2 ^ 8) + a / 2 ^ 8 % 2 ^ 16 + s1) % 2 ^ 24 +
      (2 ^ 32 - s1 % 2 ^ 32)) % 2 ^ 32) % 2 ^ 16 = a / 2 ^ 8 % 2 ^ 16 := by omega
  have h3 : ((2 ^ 24 * (a / 2 ^ 24 % 2 ^ 8) +
      (2 ^ 16 * (a % 2 ^ 8) + a / 2 ^ 8 % 2 ^ 16 + s1) % 2 ^ 24 +
      (2 ^ 32 - s1 % 2 ^ 32)) % 2 ^ 32) / 2 ^ 16 % 2 ^ 8 = a % 2 ^ 8 := by omega
  rw [h1, h2, h3]
  omega

/-- Byte-field extraction: the top byte of a three-field sum. -/
theorem slot_div24 (q r c : ℕ) (hq : q < 2 ^ 8) (hr : r < 2 ^ 16) (hc : c < 2 ^ 8) :
    (2 ^ 8 * (2 ^ 16 * q + r) + c) / 2 ^ 24 % 2 ^ 8 = q := by
  rw [show 2 ^ 8 * (2 ^ 16 * q + r) + c = 2 ^ 24 * q + (2 ^ 8 * r + c) by ring,
    Nat.mul_add_div (by norm_num : 0 < (2 : ℕ) ^ 24),
    Nat.div_eq_of_lt (by omega), Nat.add_zero, Nat.mod_eq_of_lt hq]

/-- Byte-field extraction: the low byte of a three-field sum. -/
theorem slot_mod8 (w c : ℕ) (hc : c < 2 ^ 8) :
    (2 ^ 8 * w + c) % 2 ^ 8 = c := by
  rw [Nat.mul_add_mod, Nat.mod_eq_of_lt hc]

/-- Byte-field extraction: the middle field of a three-field sum. -/
theorem slot_div8 (q r c : ℕ) (hr : r < 2 ^ 16) (hc : c < 2 ^ 8) :
    (2 ^ 8 * (2 ^ 16 * q + r) + c) / 2 ^ 8 % 2 ^ 16 = r := by
  rw [Nat.mul_add_div (by norm_num : 0 < (2 : ℕ) ^ 8),
    Nat.div_eq_of_lt hc, Nat.add_zero, Nat.mul_add_mod, Nat.mod_eq_of_lt hr]

/-- The arithmetic core of `encA` inverting `decA`. -/
theorem core2_inner (s1 x : ℕ) (hx : x < 2 ^ 32) :
    2 ^ 24 * (decAofX s1 x / 2 ^ 24 % 2 ^ 8) +
      (2 ^ 16 * (decAofX s1 x % 2 ^ 8) + decAofX s1 x / 2 ^ 8 % 2 ^ 16 + s1) % 2 ^ 24 = x := by
  unfold decAofX sub32
  generalize hSdef : (x + (2 ^ 32 - s1 % 2 ^ 32)) % 2 ^ 32 = S
  have hS : S < 2 ^ 32 := by omega
  have hrel : (S + s1) % 2 ^ 24 = x % 2 ^ 24 := by omega
  clear hSdef
  rw [show 2 ^ 24 * (x / 2 ^ 24 % 2 ^ 8) + 2 ^ 8 * (S % 2 ^ 16) + S / 2 ^ 16 % 2 ^ 8 =
    2 ^ 8 * (2 ^ 16 * (x / 2 ^ 24 % 2 ^ 8) + S % 2 ^ 16) + S / 2 ^ 16 % 2 ^ 8 by ring]
  rw [slot_div24 _ _ _ (by omega) (by omega) (by omega),
    slot_mod8 _ _ (by omega),
    slot_div8 _ _ _ (by omega) (by omega)]
  have h4 : (2 ^ 16 * (S / 2 ^ 16 % 2 ^ 8) + S % 2 ^ 16 + s1) % 2 ^ 24 = x % 2 ^ 24 := by
    have hlow : 2 ^ 16 * (S / 2 ^ 16 % 2 ^ 8) + S % 2 ^ 16 = S % 2 ^ 24 := by omega
    rw [hlow]
    omega
  rw [h4]
  have hq : x / 2 ^ 24 % 2 ^ 8 = x / 2 ^ 24 := by omega
  rw [hq]
  omega

/-- `encA` inverts `decA`. -/
theorem core2 (s0 s1 a : ℕ) (ha : a < 2 ^ 32) (hs0 : s0 < 2 ^ 32) :
    encA s0 s1 (decA s0 s1 a) = a := by
  have hx : a ^^^ s0 < 2 ^ 32 := xor_lt_32 ha hs0
  unfold encA decA
  rw [core2_inner s1 (a ^^^ s0) hx]
  exact Nat.xor_cancel_right _ _

-- C2 main

/-- C2: for every pair of 32-bit words, `cb1::decrypt_code` inverts
`cb1::encrypt_code` and `cb1::encrypt_code` inverts `cb1::decrypt_code`. -/
theorem cb1_round_trip (a v : ℕ) (ha : a < 2 ^ 32) (hv : v < 2 ^ 32) :
    Cb1.decrypt_code (Cb1.encrypt_code a v).1 (Cb1.encrypt_code a v).2 = (a, v) ∧
    Cb1.encrypt_code (Cb1.decrypt_code a v).1 (Cb1.decrypt_code a v).2 = (a, v) := by
  have hcmd : a >>> 28 < 16 := by rw [shr28]; omega
  have hseed0 : Cb1.seed 0 (a >>> 28) < 2 ^ 28 := by
    have h := fun c hc => (by decide : ∀ c, c < 16 → Cb1.seed 0 c < 2 ^ 28) c hc
    exact h _ hcmd
  have hseed0' : Cb1.seed 0 (a >>> 28) < 2 ^ 32 := lt_trans hseed0 (by norm_num)
  constructor
  · have ecmd : (Cb1.encrypt_code a v).1 >>> 28 = a >>> 28 := by
      rw [enc_fst]; exact encA_div _ _ _ ha hseed0
    rw [Prod.ext_iff]
    constructor
    · rw [dec_fst, ecmd, enc_fst]
      exact core1 _ _ _ ha
    · rw [dec_snd, ecmd, enc_snd]
      by_cases h : 2 < a >>> 28
      · simp only [h, if_true]
        rw [Nat.xor_cancel_left]
        unfold sub32
        omega
      · simp only [h, if_false]
  · have dcmd : (Cb1.decrypt_code a v).1 >>> 28 = a >>> 28 := by
      rw [dec_fst]; exact decA_div _ _ _ ha hseed0
    rw [Prod.ext_iff]
    constructor
    · rw [enc_fst, dcmd, dec_fst]
      exact core2 _ _ _ ha hseed0'
    · rw [enc_snd, dcmd, enc_fst, dcmd, dec_fst, dec_snd]
      by_cases h : 2 < a >>> 28
      · simp only [h, if_true]
        rw [core2 _ _ _ ha hseed0']
        have hxv : a ^^^ v < 2 ^ 32 := xor_lt_32 ha hv
        rw [show (sub32 (a ^^^ v) (Cb1.seed 2 (a >>> 28)) + Cb1.seed 2 (a >>> 28)) % 2 ^ 32 =
          a ^^^ v by unfold sub32; omega]
        exact Nat.xor_cancel_left _ _
      · simp only [h, if_false]

/-- Witness: `cb1_round_trip` at the crate's own `cmd > 2` test vector. -/
theorem cb1_round_trip_witness :
    0x902DB32C < 2 ^ 32 ∧ 0x0C0BAFF1 < 2 ^ 32 ∧
    (Cb1.decrypt_code (Cb1.encrypt_code 0x902DB32C 0x0C0BAFF1).1
        (Cb1.encrypt_code 0x902DB32C 0x0C0BAFF1).2 = (0x902DB32C, 0x0C0BAFF1) ∧
      Cb1.encrypt_code (Cb1.decrypt_code 0x902DB32C 0x0C0BAFF1).1
        (Cb1.decrypt_code 0x902DB32C 0x0C0BAFF1).2 = (0x902DB32C, 0x0C0BAFF1)) :=
  ⟨by decide, by decide, cb1_round_trip 0x902DB32C 0x0C0BAFF1 (by decide) (by decide)⟩


/-- Instantiation of `beefcode_guard` at concrete inputs. -/
theorem beefcode_guard_witness :
    (Cb7.new.beefcode 1 2).isSome = is_beefcode 1 ∧
    (Cb7.new.beefcode 0xBEEFC0DE 2).isSome = is_beefcode 0xBEEFC0DE :=
  ⟨beefcode_guard Cb7.new 1 2, beefcode_guard Cb7.new 0xBEEFC0DE 2⟩
